import Mathlib

/-!
Verification development for the feedback-analysis pipeline
(sentiment coordinator, topic extractor, insight generator, batch aggregator).

The Python sources are embedded shallowly:
* pure text manipulation is modelled on `List Char` / `String`;
* Python floats are modelled by `ℚ`;
* Python dictionaries (insertion ordered) are modelled by association lists;
* a caught Python exception is modelled by an explicit error field or flag;
* network adapters are modelled by taking their outcome (`Option`) as input.
-/

namespace Feedback

/-! ### Python-style character and string primitives -/

/-- ASCII lower-casing, as `str.lower` acts on the ASCII range. -/
def pyToLower (c : Char) : Char :=
  if 'A' ≤ c ∧ c ≤ 'Z' then Char.ofNat (c.toNat + 32) else c

/-- Python whitespace for `str.split()` (ASCII part). -/
def pyIsSpace (c : Char) : Bool :=
  c == ' ' || c == '\t' || c == '\n' || c == '\x0d' || c == '\x0b' || c == '\x0c'

/-- `needle` occurs at the start of the list. -/
def startsList : List Char → List Char → Bool
  | [], _ => true
  | _ :: _, [] => false
  | a :: as, b :: bs => a == b && startsList as bs

/-- The Python `needle in haystack` substring test. -/
def isSubstr (needle : List Char) : List Char → Bool
  | [] => needle.isEmpty
  | c :: rest => startsList needle (c :: rest) || isSubstr needle rest

/-- Scanning loop of the Python `haystack.count(needle)`: at each position,
`skip` chars remain to be passed over from the previous match; at a match,
counting resumes after the matched slice (non-overlapping occurrences). -/
def pyCountAux (needle : List Char) : List Char → Nat → Nat
  | [], _ => 0
  | _ :: rest, k + 1 => pyCountAux needle rest k
  | c :: rest, 0 =>
    if startsList needle (c :: rest) then
      1 + pyCountAux needle rest (needle.length - 1)
    else
      pyCountAux needle rest 0

/-- The Python `haystack.count(needle)`: non-overlapping occurrences, scanning
left to right and skipping the length of the needle after each match. -/
def pyCount (needle : List Char) (haystack : List Char) : Nat :=
  pyCountAux needle haystack 0

/-- Auxiliary loop of the Python `str.split()`: `acc` holds the reversed
characters of the word being read. -/
def splitAux : List Char → List Char → List (List Char)
  | [], acc => if acc.isEmpty then [] else [acc.reverse]
  | c :: rest, acc =>
    if pyIsSpace c then
      if acc.isEmpty then splitAux rest [] else acc.reverse :: splitAux rest []
    else
      splitAux rest (c :: acc)

/-- The Python `text.split()` (split on whitespace runs, no empty words). -/
def pySplit (s : List Char) : List (List Char) := splitAux s []

/-! ### Sentiment analyzer (`sentiment_analyzer.py`) -/

/-- One `{label, score}` pair as returned by a sentiment method. -/
structure LabelScore where
  label : String
  score : ℚ
deriving DecidableEq

/-- The dictionary shape shared by both adapter results: `method`, a
`sentiment` list of label/score pairs, and the TextBlob-only raw fields. -/
structure MethodResult where
  method : String
  sentiment : List LabelScore
  polarity : Option ℚ
  subjectivity : Option ℚ
deriving DecidableEq

/-- The function `analyze_with_textblob`: the deterministic mapping from the TextBlob
polarity/subjectivity pair (the external lexicon computation) to a result.
The thresholds and confidences are exactly those of the source. -/
def analyze_with_textblob (polarity subjectivity : ℚ) : MethodResult :=
  if polarity > 1/10 then
    { method := "textblob"
      sentiment := [{ label := "POSITIVE", score := polarity }]
      polarity := some polarity, subjectivity := some subjectivity }
  else if polarity < -(1/10) then
    { method := "textblob"
      sentiment := [{ label := "NEGATIVE", score := |polarity| }]
      polarity := some polarity, subjectivity := some subjectivity }
  else
    { method := "textblob"
      sentiment := [{ label := "NEUTRAL", score := 1 - |polarity| }]
      polarity := some polarity, subjectivity := some subjectivity }

/-- The three shapes `analyze_sentiment` can return: the dictionary of a
single method unmodified, the combined dictionary, or the failure dictionary. -/
inductive SentOutput where
  | single (r : MethodResult)
  | combined (results : List MethodResult) (primary : String) (methods : List String)
  | failure (error : String)
deriving DecidableEq

/-- The `success` field of the returned dictionary. -/
def SentOutput.success : SentOutput → Bool
  | .failure _ => false
  | _ => true

/-- Reading `results[0]["sentiment"][0]["label"] if results[0]["sentiment"] else "UNKNOWN"`. -/
def headLabel (r : MethodResult) : String :=
  match r.sentiment with
  | [] => "UNKNOWN"
  | ls :: _ => ls.label

/-- The coordinator `analyze_sentiment`, as a function of the two adapter
outcomes (`none` models an adapter returning `None`). -/
def analyze_sentiment (preferred : String) (hf tb : Option MethodResult) : SentOutput :=
  let results :=
    (if preferred = "auto" ∨ preferred = "huggingface" then hf.toList else []) ++
    (if preferred = "auto" ∨ preferred = "textblob" then tb.toList else [])
  match results with
  | [] => .failure "All sentiment analysis methods failed"
  | [r] => .single r
  | r0 :: r1 :: rest =>
      .combined (r0 :: r1 :: rest) (headLabel r0) ((r0 :: r1 :: rest).map (·.method))

/-! ### Topic extractor (`topic_extractor.py`) -/

/-- One value of the `topic_scores` dictionary built by
`extract_topics_with_categories`. -/
structure CatData where
  score : Nat
  matched_keywords : List String
  relevance : ℚ
deriving DecidableEq

/-- The table `self.product_keywords`: the fixed 8-category vocabulary, in the
insertion order of the source. -/
def product_keywords : List (String × List String) :=
  [("quality", ["quality", "build", "material", "durable", "cheap", "flimsy", "solid", "sturdy"]),
   ("usability", ["easy", "difficult", "user-friendly", "confusing", "intuitive", "complicated"]),
   ("performance", ["fast", "slow", "speed", "performance", "lag", "smooth", "responsive"]),
   ("design", ["design", "appearance", "look", "style", "color", "beautiful", "ugly"]),
   ("price", ["price", "cost", "expensive", "cheap", "value", "money", "budget"]),
   ("customer_service", ["service", "support", "help", "staff", "representative", "response"]),
   ("shipping", ["shipping", "delivery", "packaging", "arrived", "package", "box"]),
   ("features", ["feature", "function", "capability", "option", "settings", "customization"])]

/-- The inner keyword loop of `extract_topics_with_categories`: accumulates
`score` and `matched_keywords` over the keyword list of one category. -/
def catScore (text_lower : List Char) (kws : List String) : Nat × List String :=
  kws.foldl
    (fun acc kw =>
      if isSubstr kw.toList text_lower then
        let count := pyCount kw.toList text_lower
        (acc.1 + count, acc.2 ++ List.replicate count kw)
      else acc)
    (0, [])

/-- The function `extract_topics_with_categories`: for each category, sum the occurrence
counts of its keywords in the lower-cased text; keep the category only when
its score is positive; `relevance = score / len(text.split())`. -/
def extract_topics_with_categories (text : List Char) : List (String × CatData) :=
  let text_lower := text.map pyToLower
  product_keywords.foldl
    (fun acc p =>
      let r := catScore text_lower p.2
      if 0 < r.1 then
        acc ++ [(p.1, { score := r.1, matched_keywords := r.2,
                        relevance := (r.1 : ℚ) / ((pySplit text).length : ℚ) })]
      else acc)
    []

/-- The part of the `analyze_topics` result consumed by the agent: the
`categories` key (absent when category extraction raised) and `success`. -/
structure TopicResult where
  categories : Option (List (String × CatData))
  success : Bool
deriving DecidableEq

/-! ### Insight generator (`agent.py`, `_generate_insights`) -/

/-- The `insights` dictionary being mutated inside `_generate_insights`. -/
structure InsightsAcc where
  summary : String
  action_items : List String
  priority_level : String
  key_findings : List String
deriving DecidableEq

/-- The returned insights dictionary; `error` is the key attached by the
`except` clause when the body raised. -/
structure Insights where
  summary : String
  action_items : List String
  priority_level : String
  key_findings : List String
  error : Option String
deriving DecidableEq

/-- The local variable `primary_sentiment` after the sentiment block:
`none` models the Python variable being left undefined (sentiment failed). -/
def primaryOf : SentOutput → Option String
  | .single r => some (headLabel r)
  | .combined _ p _ => some p
  | .failure _ => none

/-- Stable insertion for a descending sort by score: an element is placed
before the first existing element of score ≤ its own, exactly reproducing
`sorted(items, key=lambda x: x[1]["score"], reverse=True)` (stable). -/
def insertByScoreDesc (x : String × CatData) :
    List (String × CatData) → List (String × CatData)
  | [] => [x]
  | y :: ys => if y.2.score ≤ x.2.score then x :: y :: ys else y :: insertByScoreDesc x ys

/-- Stable descending sort by score. -/
def sortByScoreDesc (l : List (String × CatData)) : List (String × CatData) :=
  l.foldr insertByScoreDesc []

/-- The `for category, data in top_categories` loop. Reading the unassigned
local `primary_sentiment` (only reached for the "quality" and "price"
guards) raises an `UnboundLocalError`; the second component records whether
it raised, keeping the mutations already applied. -/
def insightLoop (primary : Option String) (acc : InsightsAcc) :
    List (String × CatData) → InsightsAcc × Bool
  | [] => (acc, false)
  | (cat, data) :: rest =>
    let n := data.score
    let acc := { acc with key_findings :=
      acc.key_findings ++ ["Key topic: " ++ cat ++ " (mentioned " ++ toString n ++ " times)"] }
    if cat = "quality" then
      match primary with
      | none => (acc, true)
      | some p =>
        insightLoop primary
          (if p = "NEGATIVE" then
            { acc with action_items := acc.action_items ++ ["Review product quality control processes"] }
          else acc) rest
    else if cat = "price" then
      match primary with
      | none => (acc, true)
      | some p =>
        insightLoop primary
          (if p = "NEGATIVE" then
            { acc with action_items := acc.action_items ++ ["Evaluate pricing strategy"] }
          else acc) rest
    else if cat = "customer_service" then
      insightLoop primary
        { acc with action_items := acc.action_items ++ ["Review customer service procedures"] } rest
    else
      insightLoop primary acc rest

/-- The message attached by the `except` clause when the unassigned local
`primary_sentiment` is read: `primary_sentiment` is assigned inside the
sentiment block, so it is a local of `_generate_insights` and the raised
exception is `UnboundLocalError` with this text (the quotation marks around
the variable name are written with hex escapes). -/
def unboundLocalMsg : String :=
  "Error generating insights: cannot access local variable \x27primary_sentiment\x27 where it is not associated with a value"

/-- The summary topics: entries of `key_findings` containing "topic:",
split on ':', second part, stripped, comma-joined. -/
def summaryTopics (findings : List String) : String :=
  String.intercalate ", "
    ((findings.filter (fun f => isSubstr "topic:".toList f.toList)).map
      (fun f => ((f.splitOn ":").getD 1 "").trim))

/-- The function `_generate_insights` as a function of the sentiment result, the topic
result and nothing else (the feedback text is unused by the source). -/
def generate_insights (sent : SentOutput) (topic : TopicResult) : Insights :=
  let init : InsightsAcc :=
    { summary := "", action_items := [], priority_level := "medium", key_findings := [] }
  let primary := primaryOf sent
  let acc :=
    match primary with
    | none => init
    | some p =>
      let acc := { init with key_findings := init.key_findings ++ ["Overall sentiment: " ++ p] }
      if p = "NEGATIVE" then
        { acc with priority_level := "high",
                   action_items := acc.action_items ++
                     ["Immediate attention required - negative customer feedback"] }
      else if p = "POSITIVE" then
        { acc with priority_level := "low",
                   action_items := acc.action_items ++
                     ["Maintain current quality - positive feedback"] }
      else acc
  let step :=
    if topic.success then
      match topic.categories with
      | some cats => insightLoop primary acc ((sortByScoreDesc cats).take 3)
      | none => (acc, false)
    else (acc, false)
  let acc := step.1
  if step.2 then
    { summary := acc.summary, action_items := acc.action_items,
      priority_level := acc.priority_level, key_findings := acc.key_findings,
      error := some unboundLocalMsg }
  else
    match primary with
    | none =>
      { summary := acc.summary, action_items := acc.action_items,
        priority_level := acc.priority_level, key_findings := acc.key_findings,
        error := some unboundLocalMsg }
    | some p =>
      let s := "Feedback shows " ++ String.map pyToLower p ++ " sentiment. "
      let s :=
        if acc.key_findings.isEmpty then s
        else s ++ "Main topics: " ++ summaryTopics acc.key_findings
      { summary := s, action_items := acc.action_items,
        priority_level := acc.priority_level, key_findings := acc.key_findings,
        error := none }

/-! ### Batch aggregator (`agent.py`, `_generate_batch_report`) -/

/-- The slice of one `analysis_result` consumed by the batch report:
`analysis.get("sentiment")` and `analysis.get("topics")`; `none` models an
absent key (the `.get` default `{}` is falsy, like a failure record). -/
structure Record where
  sentiment : Option SentOutput
  topics : Option TopicResult
deriving DecidableEq

/-- The value `sentiment_data.get("success")` of a record. -/
def recordSuccess : Option SentOutput → Bool
  | some s => s.success
  | none => false

/-- The label appended to `sentiments` for one record: the
`primary_sentiment` key when present (combined results), else the first
label of a truthy `sentiment` list; `none` when nothing is appended. -/
def recordLabel : Option SentOutput → Option String
  | some (.combined _ p _) => some p
  | some (.single r) =>
    match r.sentiment with
    | [] => none
    | ls :: _ => some ls.label
  | some (.failure _) => none
  | none => none

/-- The update `sentiment_counts[s] = sentiment_counts.get(s, 0) + 1` on an
insertion-ordered dictionary. -/
def bumpCount (l : String) : List (String × Nat) → List (String × Nat)
  | [] => [(l, 1)]
  | (k, n) :: rest => if k = l then (k, n + 1) :: rest else (k, n) :: bumpCount l rest

/-- The counting loop over the `sentiments` list. -/
def countLabels (labels : List String) : List (String × Nat) :=
  labels.foldl (fun acc l => bumpCount l acc) []

/-- The read `dict.get(k, 0)`. -/
def getCount (m : List (String × Nat)) (k : String) : Nat :=
  (m.lookup k).getD 0

/-- One `all_topics` entry. -/
structure TopicAgg where
  total_score : Nat
  mentions : Nat
deriving DecidableEq

/-- Accumulate a category of one record into `all_topics` (insertion ordered). -/
def bumpTopic (cat : String) (score : Nat) : List (String × TopicAgg) → List (String × TopicAgg)
  | [] => [(cat, { total_score := score, mentions := 1 })]
  | (k, a) :: rest =>
    if k = cat then (k, { total_score := a.total_score + score, mentions := a.mentions + 1 }) :: rest
    else (k, a) :: bumpTopic cat score rest

/-- The inner loop over the `categories` dictionary of one record. -/
def addCats (acc : List (String × TopicAgg)) (cats : List (String × CatData)) :
    List (String × TopicAgg) :=
  cats.foldl (fun acc p => bumpTopic p.1 p.2.score acc) acc

/-- The `topic_data.get("categories")` truthiness: key present and nonempty. -/
def recordCats : Option TopicResult → List (String × CatData)
  | some t =>
    match t.categories with
    | some cats => cats
    | none => []
  | none => []

/-- The `report["statistics"]` record. -/
structure Statistics where
  total_analyzed : Nat
  successful_analysis : Nat
  positive_feedback : Nat
  negative_feedback : Nat
  neutral_feedback : Nat
deriving DecidableEq

/-- The batch report; `error` is the key set by the `except` clause. -/
structure BatchReport where
  sentiment_distribution : List (String × Nat)
  topic_analysis : List (String × TopicAgg)
  recommendations : List String
  statistics : Statistics
  error : Option String
deriving DecidableEq

/-- Stable insertion for the descending sort of `all_topics` by total score. -/
def insertByTotalDesc (x : String × TopicAgg) :
    List (String × TopicAgg) → List (String × TopicAgg)
  | [] => [x]
  | y :: ys =>
    if y.2.total_score ≤ x.2.total_score then x :: y :: ys else y :: insertByTotalDesc x ys

/-- The sort `sorted(all_topics.items(), key=lambda x: x[1]["total_score"], reverse=True)`. -/
def sortByTotalDesc (l : List (String × TopicAgg)) : List (String × TopicAgg) :=
  l.foldr insertByTotalDesc []

/-- The three threshold messages. -/
def highMsg : String := "HIGH PRIORITY: Over 30% negative feedback - immediate action required"

/-- Medium-priority threshold message. -/
def mediumMsg : String := "MEDIUM PRIORITY: Significant negative feedback detected"

/-- "Mostly positive" message. -/
def goodMsg : String := "GOOD: Mostly positive feedback, maintain current approach"

/-- The function `_generate_batch_report`. The distribution, topic analysis and
statistics are computed before the `negative_percentage` division; on an
empty batch that division raises `ZeroDivisionError`, which the
surrounding `except` catches, leaving `recommendations` empty and setting
the `error` key. -/
def generate_batch_report (batch : List Record) : BatchReport :=
  let labels := batch.filterMap (fun r => recordLabel r.sentiment)
  let counts := countLabels labels
  let all_topics := batch.foldl (fun acc r => addCats acc (recordCats r.topics)) []
  let stats : Statistics :=
    { total_analyzed := batch.length
      successful_analysis := (batch.filter (fun r => recordSuccess r.sentiment)).length
      positive_feedback := getCount counts "POSITIVE"
      negative_feedback := getCount counts "NEGATIVE"
      neutral_feedback := getCount counts "NEUTRAL" }
  if batch.length = 0 then
    { sentiment_distribution := counts, topic_analysis := all_topics,
      recommendations := [], statistics := stats,
      error := some "Error generating batch report: division by zero" }
  else
    let negative_percentage : ℚ :=
      ((getCount counts "NEGATIVE" : ℚ) / (batch.length : ℚ)) * 100
    let rec1 :=
      if negative_percentage > 30 then highMsg
      else if negative_percentage > 15 then mediumMsg
      else goodMsg
    let topicRecs :=
      if all_topics.isEmpty then []
      else
        ((sortByTotalDesc all_topics).take 3).map
          (fun p => "Focus on improving: " ++ p.1 ++ " (mentioned " ++
            toString p.2.mentions ++ " times)")
    { sentiment_distribution := counts, topic_analysis := all_topics,
      recommendations := rec1 :: topicRecs, statistics := stats, error := none }

/-! ### Agent history (`agent.py`, `analyze_single_feedback`) -/

/-- One call to `analyze_single_feedback` as a state transition on the
`analysis_history` of the agent (tracked by the ids of its records): the
id of the new record is `len(self.analysis_history) + 1`; the record is
appended to the history only when the body did not raise (`ok`). -/
def analyze_single_feedback (history : List Nat) (ok : Bool) : Nat × List Nat :=
  let i := history.length + 1
  if ok then (i, history ++ [i]) else (i, history)

/-- A sequence of calls on one agent instance, given the outcome of each call;
returns the ids of the produced records in order. -/
def runCalls (history : List Nat) : List Bool → List Nat
  | [] => []
  | ok :: rest =>
    let r := analyze_single_feedback history ok
    r.1 :: runCalls r.2 rest

/-! ### Helper lemmas on the string primitives -/

theorem pyCountAux_eq_zero_of_not_substr (needle : List Char) (h : List Char)
    (hn : isSubstr needle h = false) : ∀ k : Nat, pyCountAux needle h k = 0 := by
  induction h with
  | nil => intro k; rfl
  | cons c rest ih =>
    intro k
    simp only [isSubstr, Bool.or_eq_false_iff] at hn
    match k with
    | k' + 1 => exact ih hn.2 k'
    | 0 =>
      rw [pyCountAux]
      simp only [hn.1, if_false]
      exact ih hn.2 0

theorem pyCount_eq_zero_of_not_substr (needle : List Char) (h : List Char)
    (hn : isSubstr needle h = false) : pyCount needle h = 0 :=
  pyCountAux_eq_zero_of_not_substr needle h hn 0

theorem mem_of_pyCountAux_pos (c : Char) (t : List Char) (h : List Char) :
    ∀ k : Nat, 0 < pyCountAux (c :: t) h k → c ∈ h := by
  induction h with
  | nil => intro k hp; cases hp
  | cons c0 rest ih =>
    intro k hp
    match k with
    | k' + 1 => exact List.mem_cons_of_mem c0 (ih k' hp)
    | 0 =>
      rw [pyCountAux] at hp
      by_cases hs : startsList (c :: t) (c0 :: rest) = true
      · simp only [startsList, Bool.and_eq_true, beq_iff_eq] at hs
        exact hs.1 ▸ List.mem_cons_self c0 rest
      · rw [Bool.not_eq_true] at hs
        simp only [hs, Bool.false_eq_true, if_false] at hp
        exact List.mem_cons_of_mem c0 (ih 0 hp)

theorem mem_of_pyCount_pos (c : Char) (t : List Char) (h : List Char)
    (hp : 0 < pyCount (c :: t) h) : c ∈ h :=
  mem_of_pyCountAux_pos c t h 0 hp

theorem splitAux_length_pos (s : List Char) :
    ∀ acc : List Char, (∃ c ∈ s, pyIsSpace c = false) ∨ acc ≠ [] →
      1 ≤ (splitAux s acc).length := by
  induction s with
  | nil =>
    intro acc hacc
    rcases hacc with ⟨c, hc, _⟩ | hacc
    · exact absurd hc (List.not_mem_nil c)
    · simp [splitAux, List.isEmpty_iff, hacc]
  | cons c rest ih =>
    intro acc hacc
    rw [splitAux]
    by_cases hsp : pyIsSpace c = true
    · simp only [hsp, if_true]
      by_cases hae : acc.isEmpty = true
      · simp only [hae, if_true]
        apply ih [] (Or.inl ?_)
        rcases hacc with ⟨c', hc', hns⟩ | hane
        · rcases List.mem_cons.mp hc' with h | h
          · rw [h] at hns; rw [hns] at hsp; exact absurd hsp (by simp)
          · exact ⟨c', h, hns⟩
        · exact absurd (List.isEmpty_iff.mp hae) hane
      · simp [hae]
    · rw [Bool.not_eq_true] at hsp
      simp only [hsp, Bool.false_eq_true, if_false]
      exact ih (c :: acc) (Or.inr (by simp))

theorem pySplit_length_pos (s : List Char) (hc : ∃ c ∈ s, pyIsSpace c = false) :
    1 ≤ (pySplit s).length :=
  splitAux_length_pos s [] (Or.inl hc)

theorem pyToLower_of_space (c : Char) (hs : pyIsSpace c = true) : pyToLower c = c := by
  simp only [pyIsSpace, Bool.or_eq_true, beq_iff_eq] at hs
  rcases hs with ⟨⟨⟨⟨h | h⟩ | h⟩ | h⟩ | h⟩ | h <;> subst h <;> rfl

/-! ### C2: lexicon-heuristic polarity-to-label mapping -/

/-- C2. For the lexicon-heuristic adapter with polarity `p ∈ [−1, 1]`: the
returned sentiment entry is POSITIVE with confidence `p` when `p > 0.1`,
NEGATIVE with confidence `|p|` when `p < −0.1`, and NEUTRAL with
confidence `1 − |p|` otherwise; in all cases the confidence lies in
`[0, 1]`. -/
theorem textblob_polarity_mapping (p s : ℚ) (h1 : -1 ≤ p) (h2 : p ≤ 1) :
    ((1/10 : ℚ) < p →
      (analyze_with_textblob p s).sentiment = [{ label := "POSITIVE", score := p }]) ∧
    (p < -(1/10) →
      (analyze_with_textblob p s).sentiment = [{ label := "NEGATIVE", score := |p| }]) ∧
    (-(1/10) ≤ p → p ≤ 1/10 →
      (analyze_with_textblob p s).sentiment = [{ label := "NEUTRAL", score := 1 - |p| }]) ∧
    (∀ ls ∈ (analyze_with_textblob p s).sentiment, 0 ≤ ls.score ∧ ls.score ≤ 1) := by
  unfold analyze_with_textblob
  split_ifs with hp hn
  · refine ⟨fun _ => rfl, fun h => absurd h (by linarith), fun _ h => absurd hp (by linarith), ?_⟩
    intro ls hls
    rw [List.mem_singleton] at hls
    subst hls
    exact ⟨by linarith, h2⟩
  · refine ⟨fun h => absurd h hp, fun _ => rfl, fun h _ => absurd hn (by linarith), ?_⟩
    intro ls hls
    rw [List.mem_singleton] at hls
    subst hls
    have habs : |p| = -p := abs_of_neg (by linarith)
    constructor
    · show (0 : ℚ) ≤ |p|
      rw [habs]; linarith
    · show |p| ≤ (1 : ℚ)
      rw [habs]; linarith
  · push_neg at hp hn
    refine ⟨fun h => absurd h (by linarith), fun h => absurd h (by linarith),
      fun _ _ => rfl, ?_⟩
    intro ls hls
    rw [List.mem_singleton] at hls
    subst hls
    have habs : |p| ≤ 1/10 := abs_le.mpr ⟨by linarith, hp⟩
    have habs0 : 0 ≤ |p| := abs_nonneg p
    constructor
    · show (0 : ℚ) ≤ 1 - |p|
      linarith
    · show 1 - |p| ≤ (1 : ℚ)
      linarith

/-- Witness for C2: instantiation at polarity 1/2 (a POSITIVE case). -/
theorem textblob_polarity_mapping_witness :
    (analyze_with_textblob (1/2) 0).sentiment = [{ label := "POSITIVE", score := 1/2 }] :=
  (textblob_polarity_mapping (1/2) 0 (by norm_num) (by norm_num)).1 (by norm_num)

/-! ### C3: coordinator fallback-and-combination structure -/

/-- C3 counterexample. The error message of the failure record is
"All sentiment analysis methods failed", not the string
"all sentiment methods failed." stated by the claim. -/
theorem sentiment_failure_message_counterexample :
    analyze_sentiment "auto" none none = .failure "All sentiment analysis methods failed" ∧
    ("All sentiment analysis methods failed" : String) ≠ "all sentiment methods failed." :=
  ⟨rfl, by decide⟩

/-- C3 (amended). With `preferred_method="auto"` the remote-classifier
adapter is consulted first and the lexicon-heuristic adapter second; when
both yield a result the coordinator returns a combined record whose
`primary_sentiment` is the top label of the remote result (or "UNKNOWN" when
its sentiment list is empty) and whose `methods_used` lists both methods
in order; when exactly one yields a result it is returned unmodified; when
neither does, the result is a failure record with `success = false` and
error message "All sentiment analysis methods failed". -/
theorem analyze_sentiment_auto_cases (hf tb : MethodResult) :
    analyze_sentiment "auto" (some hf) (some tb) =
      .combined [hf, tb] (headLabel hf) [hf.method, tb.method] ∧
    analyze_sentiment "auto" (some hf) none = .single hf ∧
    analyze_sentiment "auto" none (some tb) = .single tb ∧
    analyze_sentiment "auto" none none = .failure "All sentiment analysis methods failed" ∧
    (analyze_sentiment "auto" none none).success = false :=
  ⟨rfl, rfl, rfl, rfl, rfl⟩

/-! ### Helper lemmas on the batch aggregation -/

/-- Sum of the counts of a distribution dictionary. -/
def distSum (m : List (String × Nat)) : Nat := (m.map Prod.snd).sum

theorem distSum_bumpCount (l : String) (m : List (String × Nat)) :
    distSum (bumpCount l m) = distSum m + 1 := by
  induction m with
  | nil => rfl
  | cons kv rest ih =>
    obtain ⟨k, n⟩ := kv
    rw [bumpCount]
    by_cases hk : k = l
    · simp only [hk, if_true, distSum, List.map_cons, List.sum_cons]
      omega
    · simp only [hk, if_false, distSum, List.map_cons, List.sum_cons]
      simp only [distSum] at ih
      omega

theorem distSum_countLabels_go (labels : List String) :
    ∀ acc : List (String × Nat),
      distSum (labels.foldl (fun acc l => bumpCount l acc) acc) =
        distSum acc + labels.length := by
  induction labels with
  | nil => intro acc; simp
  | cons l rest ih =>
    intro acc
    rw [List.foldl_cons, ih (bumpCount l acc), distSum_bumpCount]
    rw [List.length_cons]
    omega

theorem distSum_countLabels (labels : List String) :
    distSum (countLabels labels) = labels.length := by
  rw [countLabels, distSum_countLabels_go]
  simp [distSum]

theorem recordSuccess_of_label (s : Option SentOutput) (l : String)
    (h : recordLabel s = some l) : recordSuccess s = true := by
  match s with
  | none => exact absurd h (by simp [recordLabel])
  | some (.failure e) => exact absurd h (by simp [recordLabel])
  | some (.combined rs p ms) => rfl
  | some (.single r) =>
    match hr : r.sentiment with
    | [] => rw [recordLabel, hr] at h; exact absurd h (by simp)
    | ls :: rest => rfl

theorem labels_length_le_success (batch : List Record) :
    (batch.filterMap fun r => recordLabel r.sentiment).length ≤
      (batch.filter fun r => recordSuccess r.sentiment).length := by
  induction batch with
  | nil => simp
  | cons r rest ih =>
    rw [List.filterMap_cons, List.filter_cons]
    match hl : recordLabel r.sentiment with
    | some l =>
      rw [recordSuccess_of_label r.sentiment l hl]
      simp only [List.length_cons, if_true]
      omega
    | none =>
      by_cases hs : recordSuccess r.sentiment = true
      · simp only [hs, if_true, List.length_cons]
        omega
      · rw [Bool.not_eq_true] at hs
        simp only [hs, Bool.false_eq_true, if_false]
        exact ih

/-! ### C1: empty-batch behavior of the batch report -/

/-- C1 counterexample. On the empty batch the `negative_percentage`
computation is not guarded: the division by `len(batch_results) = 0`
raises `ZeroDivisionError` (recorded by the blanket handler in the
`error` key), so a division error *is* raised and no recommendation is
produced, contrary to the claimed short-circuit to a "no data" report. -/
theorem empty_batch_division_counterexample :
    (generate_batch_report []).error =
      some "Error generating batch report: division by zero" ∧
    (generate_batch_report []).recommendations = [] :=
  ⟨rfl, rfl⟩

/-- C1 (amended). Batch aggregation on an empty batch does not short-circuit:
the division by `total_analyzed = 0` raises `ZeroDivisionError`, which the
surrounding exception handler catches. The returned report is still
well-defined — empty distribution, empty topic analysis, zeroed statistics
and empty recommendations — with the caught division error recorded in its
`error` field; no exception escapes `_generate_batch_report`. -/
theorem empty_batch_report_caught :
    generate_batch_report [] =
      { sentiment_distribution := []
        topic_analysis := []
        recommendations := []
        statistics := { total_analyzed := 0, successful_analysis := 0,
                        positive_feedback := 0, negative_feedback := 0,
                        neutral_feedback := 0 }
        error := some "Error generating batch report: division by zero" } :=
  rfl

/-! ### C5: recommendation thresholds on the negative percentage -/

/-- C5. For a non-empty batch, the first recommendation is determined by
`negative_percentage = negative_count / total × 100`: the high-priority
message iff it exceeds 30, the medium-priority message iff it exceeds 15
without exceeding 30, and the "mostly positive" message otherwise. -/
theorem negative_percentage_thresholds (batch : List Record) (h : batch ≠ []) (np : ℚ)
    (hnp : np = ((generate_batch_report batch).statistics.negative_feedback : ℚ) /
      ((generate_batch_report batch).statistics.total_analyzed : ℚ) * 100) :
    ((generate_batch_report batch).recommendations.head? = some highMsg ↔ 30 < np) ∧
    ((generate_batch_report batch).recommendations.head? = some mediumMsg ↔
      (15 < np ∧ np ≤ 30)) ∧
    ((generate_batch_report batch).recommendations.head? = some goodMsg ↔ np ≤ 15) := by
  have hlen : ¬ (batch.length = 0) := by
    simpa [List.length_eq_zero] using h
  have hne1 : highMsg ≠ mediumMsg := by decide
  have hne2 : highMsg ≠ goodMsg := by decide
  have hne3 : mediumMsg ≠ goodMsg := by decide
  have hrec : (generate_batch_report batch).recommendations.head? =
      some (if 30 < np then highMsg else if 15 < np then mediumMsg else goodMsg) := by
    simp only [generate_batch_report, hlen, if_false] at hnp ⊢
    subst hnp
    simp [gt_iff_lt]
  rw [hrec]
  by_cases h30 : 30 < np
  · rw [if_pos h30]
    refine ⟨by simp [h30], ?_, ?_⟩
    · simp only [Option.some.injEq]
      constructor
      · intro he; exact absurd he hne1
      · rintro ⟨_, h2⟩; linarith
    · simp only [Option.some.injEq]
      constructor
      · intro he; exact absurd he hne2
      · intro h2; linarith
  · rw [if_neg h30]
    by_cases h15 : 15 < np
    · rw [if_pos h15]
      push_neg at h30
      refine ⟨?_, by simp [h15, h30], ?_⟩
      · simp only [Option.some.injEq]
        constructor
        · intro he; exact absurd he.symm hne1
        · intro h2; linarith
      · simp only [Option.some.injEq]
        constructor
        · intro he; exact absurd he hne3
        · intro h2; linarith
    · rw [if_neg h15]
      push_neg at h15
      refine ⟨?_, ?_, by simp [h15]⟩
      · simp only [Option.some.injEq]
        constructor
        · intro he; exact absurd he.symm hne2
        · intro h2; linarith
      · simp only [Option.some.injEq]
        constructor
        · intro he; exact absurd he.symm hne3
        · rintro ⟨h2, _⟩; linarith

/-- Witness for C5: a batch of one record with no sentiment data has
negative percentage 0, so the "mostly positive" message is first. -/
theorem negative_percentage_thresholds_witness :
    (generate_batch_report [{ sentiment := none, topics := none }]).recommendations.head? =
      some goodMsg :=
  (negative_percentage_thresholds [{ sentiment := none, topics := none }]
    (by simp) _ rfl).2.2.mpr
    (by norm_num [generate_batch_report, getCount, countLabels, recordLabel])

/-! ### C7: distribution counts versus successful analyses -/

/-- C7 counterexample. A record whose sentiment succeeded but carries an
empty `sentiment` list (a reachable remote-classifier shape) contributes
to `successful_analysis` yet adds nothing to `sentiment_distribution`:
the distribution sums to 0 while `successful_analysis` is 1. -/
theorem distribution_sum_counterexample :
    distSum (generate_batch_report
      [{ sentiment := some (.single
          { method := "huggingface", sentiment := [], polarity := none, subjectivity := none }),
         topics := none }]).sentiment_distribution = 0 ∧
    (generate_batch_report
      [{ sentiment := some (.single
          { method := "huggingface", sentiment := [], polarity := none, subjectivity := none }),
         topics := none }]).statistics.successful_analysis = 1 ∧
    (0 : Nat) ≠ 1 :=
  ⟨rfl, rfl, by decide⟩

/-- C7 (amended). The counts in `sentiment_distribution` sum to the number
of records that both succeeded and carry a primary label (a
`primary_sentiment` key, or a non-empty `sentiment` list); this is at most
`statistics.successful_analysis`, with equality exactly when every
successful record carries a label (the only divergence being successful
remote results with an empty sentiment list). -/
theorem distribution_sum_eq_labelled (batch : List Record) :
    distSum (generate_batch_report batch).sentiment_distribution =
      (batch.filterMap fun r => recordLabel r.sentiment).length ∧
    distSum (generate_batch_report batch).sentiment_distribution ≤
      (generate_batch_report batch).statistics.successful_analysis := by
  have hd : (generate_batch_report batch).sentiment_distribution =
      countLabels (batch.filterMap fun r => recordLabel r.sentiment) := by
    simp only [generate_batch_report]
    split <;> rfl
  have hs : (generate_batch_report batch).statistics.successful_analysis =
      (batch.filter fun r => recordSuccess r.sentiment).length := by
    simp only [generate_batch_report]
    split <;> rfl
  rw [hd, hs, distSum_countLabels]
  exact ⟨rfl, labels_length_le_success batch⟩

/-! ### Helper lemmas on the insight generator -/

theorem insightLoop_cons (p : Option String) (a : InsightsAcc) (cat : String)
    (data : CatData) (rest : List (String × CatData)) :
    insightLoop p a ((cat, data) :: rest) =
      (let acc := { a with key_findings := a.key_findings ++
          ["Key topic: " ++ cat ++ " (mentioned " ++ toString data.score ++ " times)"] }
       if cat = "quality" then
         match p with
         | none => (acc, true)
         | some pp =>
           insightLoop p
             (if pp = "NEGATIVE" then
               { acc with action_items :=
                   acc.action_items ++ ["Review product quality control processes"] }
             else acc) rest
       else if cat = "price" then
         match p with
         | none => (acc, true)
         | some pp =>
           insightLoop p
             (if pp = "NEGATIVE" then
               { acc with action_items := acc.action_items ++ ["Evaluate pricing strategy"] }
             else acc) rest
       else if cat = "customer_service" then
         insightLoop p
           { acc with action_items :=
               acc.action_items ++ ["Review customer service procedures"] } rest
       else insightLoop p acc rest) := rfl

theorem insightLoop_priority (p : Option String) (l : List (String × CatData)) :
    ∀ a : InsightsAcc, (insightLoop p a l).1.priority_level = a.priority_level := by
  induction l with
  | nil => intro a; rfl
  | cons x rest ih =>
    intro a
    obtain ⟨cat, data⟩ := x
    rw [insightLoop_cons]
    cases p with
    | none =>
      repeat' split
      all_goals first | rfl | rw [ih]
    | some pp =>
      repeat' split
      all_goals first | rfl | rw [ih]

theorem insightLoop_some_no_raise (pp : String) (l : List (String × CatData)) :
    ∀ a : InsightsAcc, (insightLoop (some pp) a l).2 = false := by
  induction l with
  | nil => intro a; rfl
  | cons x rest ih =>
    intro a
    obtain ⟨cat, data⟩ := x
    rw [insightLoop_cons]
    repeat' split
    all_goals first | contradiction | rfl | rw [ih]

/-- The priority level produced by `_generate_insights` is fixed by the
sentiment block alone: "medium" by default, "high"/"low" for a defined
NEGATIVE/POSITIVE primary sentiment; the topic loop never changes it. -/
theorem generate_insights_priority (sent : SentOutput) (topic : TopicResult) :
    (generate_insights sent topic).priority_level =
      (match primaryOf sent with
       | none => "medium"
       | some p =>
          if p = "NEGATIVE" then "high" else if p = "POSITIVE" then "low" else "medium") := by
  cases hp : primaryOf sent with
  | none =>
    simp only [generate_insights, hp]
    by_cases hs : topic.success = true
    · simp only [hs, if_true]
      cases hcat : topic.categories with
      | none => rfl
      | some cats =>
        cases hr : (insightLoop none
            { summary := "", action_items := [], priority_level := "medium", key_findings := [] }
            ((sortByScoreDesc cats).take 3)).2 <;>
          simp only [hr, if_true, if_false, Bool.false_eq_true] <;>
          rw [insightLoop_priority]
    · simp only [hs, Bool.false_eq_true, if_false]
  | some p =>
    simp only [generate_insights, hp]
    by_cases hs : topic.success = true
    · simp only [hs, if_true]
      cases hcat : topic.categories with
      | none =>
        by_cases h1 : p = "NEGATIVE" <;> by_cases h2 : p = "POSITIVE" <;>
          simp only [h1, h2, if_true, if_false] <;> rfl
      | some cats =>
        rw [insightLoop_some_no_raise]
        simp only [Bool.false_eq_true, if_false]
        rw [insightLoop_priority]
        by_cases h1 : p = "NEGATIVE" <;> by_cases h2 : p = "POSITIVE" <;>
          simp only [h1, h2, if_true, if_false]
        all_goals rfl
    · simp only [hs, Bool.false_eq_true, if_false]
      by_cases h1 : p = "NEGATIVE" <;> by_cases h2 : p = "POSITIVE" <;>
        simp only [h1, h2, if_true, if_false]
      all_goals rfl

/-! ### C6: insight generation on a failed sentiment result -/

/-- C6 counterexample. On a sentiment result with `success=false` the
insight generator does *not* treat the sentiment as label UNKNOWN: the
local `primary_sentiment` is never assigned, so building the summary
raises an `UnboundLocalError` that the handler records in the `error`
field; no "Overall sentiment: UNKNOWN" finding and no summary are
produced. -/
theorem failed_sentiment_insights_counterexample :
    generate_insights (.failure "All sentiment analysis methods failed")
        { categories := some [], success := true } =
      { summary := "", action_items := [], priority_level := "medium", key_findings := [],
        error := some unboundLocalMsg } ∧
    "Overall sentiment: UNKNOWN" ∉
      (generate_insights (.failure "All sentiment analysis methods failed")
        { categories := some [], success := true }).key_findings := by
  refine ⟨rfl, ?_⟩
  rw [show (generate_insights (.failure "All sentiment analysis methods failed")
    { categories := some [], success := true }).key_findings = [] from rfl]
  exact List.not_mem_nil _

/-- C6 (amended). For every sentiment result with `success=false`, insight
generation does not raise and yields `priority_level = "medium"` (the
default); but the failure is not rendered as label UNKNOWN — instead
reading the unassigned local `primary_sentiment` triggers an internal
`UnboundLocalError`, caught and recorded in the `error` field of the
insight. -/
theorem failed_sentiment_insights (e : String) (topic : TopicResult) :
    (generate_insights (.failure e) topic).priority_level = "medium" ∧
    (generate_insights (.failure e) topic).error = some unboundLocalMsg := by
  constructor
  · rw [generate_insights_priority]
    rfl
  · simp only [generate_insights, primaryOf]
    by_cases hs : topic.success = true
    · simp only [hs, if_true]
      cases hcat : topic.categories with
      | none => rfl
      | some cats =>
        cases hr : (insightLoop none
            { summary := "", action_items := [], priority_level := "medium", key_findings := [] }
            ((sortByScoreDesc cats).take 3)).2 <;>
          simp [hr]
    · simp only [hs, Bool.false_eq_true, if_false]

/-! ### C9: priority mapping for successful sentiment results -/

/-- C9. For every successful sentiment result and every topic result, the
priority level of the insight is "high" when the primary sentiment label is
NEGATIVE, "low" when it is POSITIVE, and "medium" when it is NEUTRAL or
UNKNOWN. -/
theorem insight_priority_mapping (sent : SentOutput) (topic : TopicResult)
    (_hs : sent.success = true) :
    (primaryOf sent = some "NEGATIVE" →
      (generate_insights sent topic).priority_level = "high") ∧
    (primaryOf sent = some "POSITIVE" →
      (generate_insights sent topic).priority_level = "low") ∧
    (primaryOf sent = some "NEUTRAL" ∨ primaryOf sent = some "UNKNOWN" →
      (generate_insights sent topic).priority_level = "medium") := by
  rw [generate_insights_priority sent topic]
  refine ⟨fun hp => ?_, fun hp => ?_, fun hp => ?_⟩
  · rw [hp]
    rfl
  · rw [hp]
    rfl
  · rcases hp with hp | hp <;> rw [hp] <;> rfl

/-- Witness for C9: a NEGATIVE lexicon result yields priority "high". -/
theorem insight_priority_mapping_witness :
    (generate_insights
      (.single { method := "textblob", sentiment := [{ label := "NEGATIVE", score := 1/2 }],
                 polarity := some (-(1/2)), subjectivity := some 0 })
      { categories := some [], success := true }).priority_level = "high" :=
  (insight_priority_mapping
    (.single { method := "textblob", sentiment := [{ label := "NEGATIVE", score := 1/2 }],
               polarity := some (-(1/2)), subjectivity := some 0 })
    { categories := some [], success := true } rfl).1 rfl

/-! ### C8: record id monotonicity across calls -/

/-- C8 counterexample. A failed call does not append to the history, so
its id is reused by the next call: the ids produced by a failing call
followed by a succeeding one are `[1, 1]` — neither unique nor strictly
increasing. -/
theorem record_id_counterexample :
    runCalls [] [false, true] = [1, 1] ∧
    ¬ List.Pairwise (fun a b : Nat => a < b) (runCalls [] [false, true]) :=
  ⟨rfl, by decide⟩

theorem runCalls_all_true (outcomes : List Bool) (h : ∀ b ∈ outcomes, b = true) :
    ∀ history : List Nat,
      runCalls history outcomes = List.range' (history.length + 1) outcomes.length := by
  induction outcomes with
  | nil => intro history; rfl
  | cons b rest ih =>
    intro history
    have hb : b = true := h b (List.mem_cons_self _ _)
    subst hb
    rw [runCalls]
    simp only [analyze_single_feedback, if_true]
    rw [ih (fun x hx => h x (List.mem_cons_of_mem _ hx)) (history ++ [history.length + 1])]
    simp [List.range'_succ]

/-- C8 (amended). The id of each call is `len(history) + 1`, and the record
is appended to the history only on success; hence across a sequence of
*successful* calls the produced ids are exactly `1, 2, …, n`, unique and
strictly increasing — while a failed call leaves the history unchanged and
its id is reused by the following call. -/
theorem record_ids_strict_mono (outcomes : List Bool) (h : ∀ b ∈ outcomes, b = true) :
    runCalls [] outcomes = List.range' 1 outcomes.length ∧
    List.Pairwise (fun a b : Nat => a < b) (runCalls [] outcomes) := by
  have h1 := runCalls_all_true outcomes h []
  simp only [List.length_nil, Nat.zero_add] at h1
  exact ⟨h1, h1 ▸ List.pairwise_lt_range' 1 outcomes.length⟩

/-- Witness for C8: two successful calls produce ids 1 and 2. -/
theorem record_ids_strict_mono_witness :
    runCalls [] [true, true] = List.range' 1 2 ∧
    List.Pairwise (fun a b : Nat => a < b) (runCalls [] [true, true]) :=
  record_ids_strict_mono [true, true] (by decide)

/-! ### Helper lemmas on category matching -/

theorem catScore_go (tl : List Char) (kws : List String) :
    ∀ (a : Nat) (b : List String),
      kws.foldl
        (fun acc kw =>
          if isSubstr kw.toList tl then
            let count := pyCount kw.toList tl
            (acc.1 + count, acc.2 ++ List.replicate count kw)
          else acc)
        (a, b) =
      (a + (kws.map fun kw => pyCount kw.toList tl).sum,
       b ++ (kws.map fun kw => List.replicate (pyCount kw.toList tl) kw).flatten) := by
  induction kws with
  | nil => intro a b; simp
  | cons kw rest ih =>
    intro a b
    rw [List.foldl_cons, List.map_cons, List.map_cons, List.sum_cons, List.flatten_cons]
    by_cases hs : isSubstr kw.toList tl = true
    · simp only [hs, if_true]
      rw [ih]
      rw [Nat.add_assoc, List.append_assoc]
    · rw [Bool.not_eq_true] at hs
      have hz : pyCount kw.toList tl = 0 := pyCount_eq_zero_of_not_substr _ _ hs
      simp only [hs, Bool.false_eq_true, if_false]
      rw [ih, hz]
      simp

theorem catScore_eq (tl : List Char) (kws : List String) :
    catScore tl kws =
      ((kws.map fun kw => pyCount kw.toList tl).sum,
       (kws.map fun kw => List.replicate (pyCount kw.toList tl) kw).flatten) := by
  rw [catScore, catScore_go]
  simp

theorem foldl_if_append {α β : Type} (P : α → Prop) [DecidablePred P] (f : α → β)
    (l : List α) :
    ∀ acc : List β,
      l.foldl (fun acc x => if P x then acc ++ [f x] else acc) acc =
        acc ++ l.filterMap (fun x => if P x then some (f x) else none) := by
  induction l with
  | nil => intro acc; simp
  | cons x rest ih =>
    intro acc
    rw [List.foldl_cons, List.filterMap_cons]
    by_cases hx : P x
    · simp only [hx, if_true]
      rw [ih]
      simp
    · simp only [hx, if_false]
      rw [ih]

theorem extract_eq_filterMap (text : List Char) :
    extract_topics_with_categories text =
      product_keywords.filterMap (fun p =>
        if 0 < (catScore (text.map pyToLower) p.2).1 then
          some (p.1,
            { score := (catScore (text.map pyToLower) p.2).1,
              matched_keywords := (catScore (text.map pyToLower) p.2).2,
              relevance := ((catScore (text.map pyToLower) p.2).1 : ℚ) /
                ((pySplit text).length : ℚ) })
        else none) := by
  simp only [extract_topics_with_categories]
  rw [foldl_if_append]
  rw [List.nil_append]

theorem lookup_filterMap_none {β : Type} (g : (String × List String) → Option (String × β))
    (hg : ∀ p q, g p = some q → q.1 = p.1) (pk : List (String × List String)) (cat : String)
    (hcat : ∀ p ∈ pk, p.1 ≠ cat) :
    List.lookup cat (pk.filterMap g) = none := by
  induction pk with
  | nil => rfl
  | cons p rest ih =>
    rw [List.filterMap_cons]
    cases hgp : g p with
    | none => exact ih fun q hq => hcat q (List.mem_cons_of_mem _ hq)
    | some q =>
      obtain ⟨q1, q2⟩ := q
      have hq1 : q1 = p.1 := hg p (q1, q2) hgp
      have hne : (cat == q1) = false := by
        rw [hq1]
        exact beq_false_of_ne (Ne.symm (hcat p (List.mem_cons_self _ _)))
      rw [List.lookup]
      rw [hne]
      exact ih fun q hq => hcat q (List.mem_cons_of_mem _ hq)

theorem lookup_filterMap_mem {β : Type} (g : (String × List String) → Option (String × β))
    (hg : ∀ p q, g p = some q → q.1 = p.1) (pk : List (String × List String))
    (hnd : (pk.map Prod.fst).Nodup) (cat : String) (kws : List String)
    (hmem : (cat, kws) ∈ pk) :
    List.lookup cat (pk.filterMap g) = Option.map Prod.snd (g (cat, kws)) := by
  induction pk with
  | nil => cases hmem
  | cons p rest ih =>
    rw [List.map_cons, List.nodup_cons] at hnd
    rw [List.filterMap_cons]
    rcases List.mem_cons.mp hmem with heq | hmem'
    · have hp : p = (cat, kws) := heq.symm
      subst hp
      cases hgp : g (cat, kws) with
      | none =>
        rw [lookup_filterMap_none g hg rest cat ?_]
        · rfl
        · intro q hq hqcat
          apply hnd.1
          show cat ∈ List.map Prod.fst rest
          rw [← hqcat]
          exact List.mem_map_of_mem Prod.fst hq
      | some q =>
        obtain ⟨q1, q2⟩ := q
        have hq1 : q1 = cat := hg (cat, kws) (q1, q2) hgp
        subst hq1
        rw [List.lookup, beq_self_eq_true]
        rfl
    · have hp1 : p.1 ≠ cat := by
        intro hc
        apply hnd.1
        rw [hc]
        exact List.mem_map_of_mem Prod.fst hmem'
      cases hgp : g p with
      | none => exact ih hnd.2 hmem'
      | some q =>
        obtain ⟨q1, q2⟩ := q
        have hq1 : q1 = p.1 := hg p (q1, q2) hgp
        have hne : (cat == q1) = false := by
          rw [hq1]
          exact beq_false_of_ne (Ne.symm hp1)
        rw [List.lookup, hne]
        exact ih hnd.2 hmem'

theorem product_keywords_keys_nodup : (product_keywords.map Prod.fst).Nodup := by
  decide

/-! ### C4: category-matching scores, keywords and relevance -/

/-- C4. For every text and every category of the fixed vocabulary: the
score of the category equals the sum over its keywords of the occurrence count
of the keyword in the lower-cased text; the category is absent exactly
when that sum is 0; `matched_keywords` holds one entry per matched
occurrence; and `relevance` is the score divided by the whitespace word
count of the original text. -/
theorem category_score_spec (text : List Char) (cat : String) (kws : List String)
    (hmem : (cat, kws) ∈ product_keywords) :
    List.lookup cat (extract_topics_with_categories text) =
      (if 0 < (kws.map fun kw => pyCount kw.toList (text.map pyToLower)).sum then
        some
          { score := (kws.map fun kw => pyCount kw.toList (text.map pyToLower)).sum,
            matched_keywords := (kws.map fun kw =>
              List.replicate (pyCount kw.toList (text.map pyToLower)) kw).flatten,
            relevance :=
              ((kws.map fun kw => pyCount kw.toList (text.map pyToLower)).sum : ℚ) /
                ((pySplit text).length : ℚ) }
      else none) := by
  have hg : ∀ (p : String × List String) (q : String × CatData),
      (if 0 < (catScore (text.map pyToLower) p.2).1 then
        some (p.1,
          { score := (catScore (text.map pyToLower) p.2).1,
            matched_keywords := (catScore (text.map pyToLower) p.2).2,
            relevance := ((catScore (text.map pyToLower) p.2).1 : ℚ) /
              ((pySplit text).length : ℚ) })
      else none) = some q → q.1 = p.1 := by
    intro p q hpq
    by_cases hc : 0 < (catScore (text.map pyToLower) p.2).1
    · rw [if_pos hc] at hpq
      cases hpq
      rfl
    · rw [if_neg hc] at hpq
      cases hpq
  rw [extract_eq_filterMap,
    lookup_filterMap_mem _ hg product_keywords product_keywords_keys_nodup cat kws hmem,
    catScore_eq]
  by_cases hc : 0 < (kws.map fun kw => pyCount kw.toList (text.map pyToLower)).sum
  · rw [if_pos hc, if_pos hc]
    rfl
  · rw [if_neg hc, if_neg hc]
    rfl

/-- Witness for C4: on the text "quality", the quality category scores 1
with matched keyword "quality" and relevance 1/1 = 1. -/
theorem category_score_spec_witness :
    List.lookup "quality" (extract_topics_with_categories "quality".toList) =
      some { score := 1, matched_keywords := ["quality"], relevance := 1 } := by
  have h := category_score_spec "quality".toList "quality"
    ["quality", "build", "material", "durable", "cheap", "flimsy", "solid", "sturdy"]
    (by decide)
  rw [h]
  rw [if_pos (by decide)]
  have hS : ((["quality", "build", "material", "durable", "cheap", "flimsy", "solid",
      "sturdy"] : List String).map fun kw =>
        pyCount kw.toList ("quality".toList.map pyToLower)).sum = 1 := by decide
  have hM : ((["quality", "build", "material", "durable", "cheap", "flimsy", "solid",
      "sturdy"] : List String).map fun kw =>
        List.replicate (pyCount kw.toList ("quality".toList.map pyToLower)) kw).flatten =
      ["quality"] := by decide
  have hL : (pySplit "quality".toList).length = 1 := by decide
  rw [hS, hM, hL]
  norm_num

/-! ### C10: the relevance division never divides by zero -/

/-- C10. Whenever `extract_topics_with_categories` creates a category
entry, some keyword occurred in the lower-cased text, so the text contains
a non-whitespace character and `len(text.split())` — the divisor of the
relevance computation — is at least 1. -/
theorem relevance_divisor_positive (text : List Char) (e : String × CatData)
    (he : e ∈ extract_topics_with_categories text) :
    0 < (pySplit text).length := by
  rw [extract_eq_filterMap] at he
  obtain ⟨p, hpmem, hpeq⟩ := List.mem_filterMap.mp he
  by_cases hc : 0 < (catScore (text.map pyToLower) p.2).1
  · rw [catScore_eq] at hc
    have hex : ∃ kw ∈ p.2, 0 < pyCount kw.toList (text.map pyToLower) := by
      by_contra hno
      push_neg at hno
      have hzero : ((p.2.map fun kw => pyCount kw.toList (text.map pyToLower)).sum) = 0 := by
        apply List.sum_eq_zero
        intro x hx
        obtain ⟨kw, hkw, hxeq⟩ := List.mem_map.mp hx
        have := hno kw hkw
        omega
      simp only at hc
      omega
    obtain ⟨kw, hkwmem, hkwpos⟩ := hex
    have hvocab : ∀ q ∈ product_keywords, ∀ w ∈ q.2,
        w.toList ≠ [] ∧ pyIsSpace (w.toList.headD 'a') = false := by decide
    obtain ⟨hne, hhead⟩ := hvocab p hpmem kw hkwmem
    cases hkl : kw.toList with
    | nil => exact absurd hkl hne
    | cons c t =>
      rw [hkl] at hkwpos
      have hcmem : c ∈ text.map pyToLower := mem_of_pyCount_pos c t _ hkwpos
      obtain ⟨c', hc'mem, hc'eq⟩ := List.mem_map.mp hcmem
      have hc'space : pyIsSpace c' = false := by
        by_contra hsp
        rw [Bool.not_eq_false] at hsp
        rw [pyToLower_of_space c' hsp] at hc'eq
        rw [hkl] at hhead
        rw [hc'eq] at hsp
        rw [List.headD_cons] at hhead
        rw [hhead] at hsp
        cases hsp
      exact pySplit_length_pos text ⟨c', hc'mem, hc'space⟩
  · rw [if_neg hc] at hpeq
    cases hpeq

/-- Witness for C10: the single-word text "quality" produces an entry and
indeed has a positive word count. -/
theorem relevance_divisor_positive_witness :
    0 < (pySplit "quality".toList).length := by
  apply relevance_divisor_positive "quality".toList
    ("quality", { score := 1, matched_keywords := ["quality"],
                  relevance := ((1 : ℕ) : ℚ) / ((1 : ℕ) : ℚ) })
  rw [show extract_topics_with_categories "quality".toList =
    [("quality", { score := 1, matched_keywords := ["quality"],
                   relevance := ((1 : ℕ) : ℚ) / ((1 : ℕ) : ℚ) })] from rfl]
  exact List.mem_singleton.mpr rfl

end Feedback
